import Mathlib

/-!
Shallow embedding of the interactive viewport controller of the PhotoCull
repository (`src/components/MainPreview.tsx` and the app store / type
declarations), together with proofs about its behaviour.

Coordinates and zoom levels are modelled as rationals (the source uses
JavaScript numbers; all constants involved are exactly representable and the
arithmetic in the claims is exact). Asynchronous request/response traffic is
modelled as explicit event traces over small state records.
-/

namespace PhotoCull

/-- A 2-D point or offset in screen coordinates. -/
structure Vec2 where
  x : ℚ
  y : ℚ
deriving DecidableEq, Repr

/-- A screen-space rectangle `{x, y, width, height}` as stored in the
`cropRect` component state. -/
structure Rect where
  x : ℚ
  y : ℚ
  width : ℚ
  height : ℚ
deriving DecidableEq, Repr

/-! ## ViewportTransform: zoom level and pan offset -/

/-- Viewport state owned by `MainPreview`: `zoomLevel` and `panOffset`. -/
structure ViewportState where
  zoomLevel : ℚ
  panOffset : Vec2
deriving DecidableEq, Repr

/-- Initial viewport: `useState(1)` and `useState({x: 0, y: 0})`. -/
def initViewport : ViewportState := ⟨1, ⟨0, 0⟩⟩

/-- Wheel zoom factor: `e.deltaY > 0 ? 0.9 : 1.1`. -/
def wheelFactor (deltaY : ℚ) : ℚ := if 0 < deltaY then 9/10 else 11/10

/-- Wheel handler `handleWheel`: ignored while crop mode is on, otherwise
multiply the zoom level by the wheel factor and clamp to `[0.5, 5]`
(`Math.max(0.5, Math.min(5, z * delta))`). -/
def handleWheel (cropMode : Bool) (deltaY : ℚ) (s : ViewportState) : ViewportState :=
  if cropMode then s
  else { s with zoomLevel := max (1/2) (min 5 (s.zoomLevel * wheelFactor deltaY)) }

/-- Zoom-in button: `setZoomLevel(z => Math.min(5, z + 0.25))`. -/
def zoomInButton (s : ViewportState) : ViewportState :=
  { s with zoomLevel := min 5 (s.zoomLevel + 1/4) }

/-- Zoom-out button: `setZoomLevel(z => Math.max(0.5, z - 0.25))`. -/
def zoomOutButton (s : ViewportState) : ViewportState :=
  { s with zoomLevel := max (1/2) (s.zoomLevel - 1/4) }

/-- Reset button `resetZoom`: zoom level 1, pan offset (0, 0). -/
def resetZoom (_s : ViewportState) : ViewportState := ⟨1, ⟨0, 0⟩⟩

/-- Double-click handler `handleDoubleClick`: outside crop mode, toggle
between zoom 1 and zoom 2, resetting the pan offset when returning to 1;
inside crop mode do nothing. -/
def handleDoubleClick (cropMode : Bool) (s : ViewportState) : ViewportState :=
  if cropMode then s
  else if s.zoomLevel = 1 then { s with zoomLevel := 2 }
  else ⟨1, ⟨0, 0⟩⟩

/-- The five zoom operations of the component (all outside crop mode). -/
inductive ZoomOp
  | wheel (deltaY : ℚ)
  | zoomIn
  | zoomOut
  | doubleClick
  | reset
deriving DecidableEq, Repr

/-- Dispatch a zoom operation (crop mode off). -/
def zoomStep (op : ZoomOp) (s : ViewportState) : ViewportState :=
  match op with
  | .wheel d => handleWheel false d s
  | .zoomIn => zoomInButton s
  | .zoomOut => zoomOutButton s
  | .doubleClick => handleDoubleClick false s
  | .reset => resetZoom s

/-- Claim C7: after every zoom operation the resulting `zoomLevel` lies in
`[0.5, 5]`; in particular a wheel step multiplies `zoomLevel` by `1.1` or
`0.9` (according to the wheel direction) and clamps the product to
`[0.5, 5]`. -/
theorem zoom_ops_clamped (op : ZoomOp) (d : ℚ) (s : ViewportState)
    (hlo : 1/2 ≤ s.zoomLevel) (hhi : s.zoomLevel ≤ 5) :
    (1/2 ≤ (zoomStep op s).zoomLevel ∧ (zoomStep op s).zoomLevel ≤ 5) ∧
    (zoomStep (ZoomOp.wheel d) s).zoomLevel
      = max (1/2) (min 5 (s.zoomLevel * wheelFactor d)) := by
  refine ⟨?_, by simp [zoomStep, handleWheel]⟩
  cases op with
  | wheel d =>
    refine ⟨le_max_left _ _, max_le (by norm_num) (min_le_left _ _)⟩
  | zoomIn =>
    exact ⟨le_min (by norm_num) (by linarith), min_le_left _ _⟩
  | zoomOut =>
    exact ⟨le_max_left _ _, max_le (by norm_num) (by linarith)⟩
  | doubleClick =>
    by_cases h : s.zoomLevel = 1 <;>
      simp [zoomStep, handleDoubleClick, h] <;> norm_num
  | reset =>
    simp [zoomStep, resetZoom]
    norm_num

/-- Witness for C7: the zoom-in button at the initial viewport. -/
theorem zoom_ops_clamped_witness :
    (1/2 ≤ (zoomStep ZoomOp.zoomIn initViewport).zoomLevel ∧
      (zoomStep ZoomOp.zoomIn initViewport).zoomLevel ≤ 5) ∧
    (zoomStep (ZoomOp.wheel 1) initViewport).zoomLevel
      = max (1/2) (min 5 (initViewport.zoomLevel * wheelFactor 1)) :=
  zoom_ops_clamped ZoomOp.zoomIn 1 initViewport (by norm_num [initViewport])
    (by norm_num [initViewport])

/-- Claim C10: while crop mode is active, a wheel event and a double-click
event leave the viewport state (zoom level and pan offset) unchanged. -/
theorem crop_mode_suppresses_zoom (s : ViewportState) (d : ℚ) :
    handleWheel true d s = s ∧ handleDoubleClick true s = s := by
  constructor <;> simp [handleWheel, handleDoubleClick]

/-! ## CropToolStateMachine -/

/-- The corner dragged during a resize gesture. -/
inductive Corner
  | nw
  | ne
  | sw
  | se
deriving DecidableEq, Repr

/-- The `cropDragMode` component state (`null` is modelled by `Option`). -/
inductive CropDragMode
  | create
  | move
  | resizeNW
  | resizeNE
  | resizeSW
  | resizeSE
deriving DecidableEq, Repr

/-- The crop-interaction component state of `MainPreview`. -/
structure CropState where
  cropRect : Option Rect
  cropStart : Option Vec2
  cropDragMode : Option CropDragMode
  cropDragOffset : Vec2
  isDraggingCrop : Bool
deriving DecidableEq, Repr

/-- Initial crop state: no rectangle, no drag in progress. -/
def initCropState : CropState := ⟨none, none, none, ⟨0, 0⟩, false⟩

/-- Corner hit-test tolerance (`const handleSize = 15`). -/
def handleSize : ℚ := 15

/-- The crop branch of `handleMouseDown` (crop mode active); `p` is the
pointer position relative to the container. Hit-tests the corners of an
existing rectangle, then its body, and otherwise starts creating a new
rectangle anchored at `p`. -/
def cropMouseDown (s : CropState) (p : Vec2) : CropState :=
  let createNew : CropState :=
    { cropRect := some ⟨p.x, p.y, 0, 0⟩
      cropStart := some p
      cropDragMode := some .create
      cropDragOffset := s.cropDragOffset
      isDraggingCrop := true }
  match s.cropRect with
  | some r =>
    if 0 < r.width ∧ 0 < r.height then
      let inLeft := r.x - handleSize ≤ p.x ∧ p.x ≤ r.x + handleSize
      let inRight := r.x + r.width - handleSize ≤ p.x ∧ p.x ≤ r.x + r.width + handleSize
      let inTop := r.y - handleSize ≤ p.y ∧ p.y ≤ r.y + handleSize
      let inBottom := r.y + r.height - handleSize ≤ p.y ∧ p.y ≤ r.y + r.height + handleSize
      let inBoxX := r.x ≤ p.x ∧ p.x ≤ r.x + r.width
      let inBoxY := r.y ≤ p.y ∧ p.y ≤ r.y + r.height
      if inLeft ∧ inTop then
        { s with cropDragMode := some .resizeNW, isDraggingCrop := true }
      else if inRight ∧ inTop then
        { s with cropDragMode := some .resizeNE, isDraggingCrop := true }
      else if inLeft ∧ inBottom then
        { s with cropDragMode := some .resizeSW, isDraggingCrop := true }
      else if inRight ∧ inBottom then
        { s with cropDragMode := some .resizeSE, isDraggingCrop := true }
      else if inBoxX ∧ inBoxY then
        { s with cropDragMode := some .move
                 cropDragOffset := ⟨p.x - r.x, p.y - r.y⟩
                 isDraggingCrop := true }
      else createNew
    else createNew
  | none => createNew

/-- The `create` branch of `handleMouseMove`: rectangle from the anchor to the
pointer, flipping the origin on negative extents; with a locked aspect ratio
the height is derived as `width / aspectRatio`. -/
def createStep (aspectRatio : Option ℚ) (anchor mouse : Vec2) : Rect :=
  let w0 := mouse.x - anchor.x
  let h0 := mouse.y - anchor.y
  let x1 := if w0 < 0 then anchor.x + w0 else anchor.x
  let w1 := if w0 < 0 then -w0 else w0
  let y1 := if h0 < 0 then anchor.y + h0 else anchor.y
  let h1 := if h0 < 0 then -h0 else h0
  let h2 := match aspectRatio with
    | some a => w1 / a
    | none => h1
  ⟨x1, y1, w1, h2⟩

/-- The `resize-*` branches of `handleMouseMove`: the directly driven
dimension gets a floor of 20, a locked aspect ratio derives the height as
`width / aspectRatio`, and the origin is repositioned so the opposite corner
stays fixed. -/
def resizeStep (corner : Corner) (aspectRatio : Option ℚ) (r : Rect) (mouse : Vec2) : Rect :=
  match corner with
  | .se =>
    let w := max 20 (mouse.x - r.x)
    let h := match aspectRatio with
      | some a => w / a
      | none => max 20 (mouse.y - r.y)
    { r with width := w, height := h }
  | .sw =>
    let newWidth := max 20 (r.x + r.width - mouse.x)
    let h := match aspectRatio with
      | some a => newWidth / a
      | none => max 20 (mouse.y - r.y)
    { x := r.x + r.width - newWidth, y := r.y, width := newWidth, height := h }
  | .ne =>
    let w := max 20 (mouse.x - r.x)
    let newHeight := match aspectRatio with
      | some a => w / a
      | none => max 20 (r.y + r.height - mouse.y)
    { x := r.x, y := r.y + r.height - newHeight, width := w, height := newHeight }
  | .nw =>
    let newWidth := max 20 (r.x + r.width - mouse.x)
    let newHeight := match aspectRatio with
      | some a => newWidth / a
      | none => max 20 (r.y + r.height - mouse.y)
    { x := r.x + r.width - newWidth
      y := r.y + r.height - newHeight
      width := newWidth
      height := newHeight }

/-- The `move` branch of `handleMouseMove`: the rectangle origin follows the
pointer minus the grab offset, clamped so the rectangle stays inside the
container. -/
def moveStep (containerW containerH : ℚ) (grabOffset : Vec2) (r : Rect) (mouse : Vec2) : Rect :=
  { r with
    x := max 0 (min (containerW - r.width) (mouse.x - grabOffset.x))
    y := max 0 (min (containerH - r.height) (mouse.y - grabOffset.y)) }

/-- The crop branch of `handleMouseMove` (crop mode active, pointer at
`mouse` relative to a `containerW × containerH` container). -/
def cropMouseMove (aspectRatio : Option ℚ) (containerW containerH : ℚ)
    (s : CropState) (mouse : Vec2) : CropState :=
  if s.isDraggingCrop then
    match s.cropDragMode with
    | some .create =>
      match s.cropStart with
      | some anchor => { s with cropRect := some (createStep aspectRatio anchor mouse) }
      | none => s
    | some .move =>
      match s.cropRect with
      | some r =>
        { s with cropRect := some (moveStep containerW containerH s.cropDragOffset r mouse) }
      | none => s
    | some .resizeNW =>
      match s.cropRect with
      | some r => { s with cropRect := some (resizeStep .nw aspectRatio r mouse) }
      | none => s
    | some .resizeNE =>
      match s.cropRect with
      | some r => { s with cropRect := some (resizeStep .ne aspectRatio r mouse) }
      | none => s
    | some .resizeSW =>
      match s.cropRect with
      | some r => { s with cropRect := some (resizeStep .sw aspectRatio r mouse) }
      | none => s
    | some .resizeSE =>
      match s.cropRect with
      | some r => { s with cropRect := some (resizeStep .se aspectRatio r mouse) }
      | none => s
    | none => s
  else s

/-- The value `applyCrop` writes into `EditState.crop`: a pixel-space
rectangle with fields `x`, `y`, `width`, `height`. -/
structure PixelCrop where
  x : ℚ
  y : ℚ
  width : ℚ
  height : ℚ
deriving DecidableEq, Repr

/-- The conversion performed by `applyCrop`: subtract the image element's
on-screen offset, scale by natural size over on-screen size, clamp the origin
to non-negative, and package the result as `{x, y, width, height}` in natural
image pixels. -/
def applyCropValue (r : Rect) (imgOffsetX imgOffsetY imgWidth imgHeight
    naturalWidth naturalHeight : ℚ) : PixelCrop :=
  let scaleX := naturalWidth / imgWidth
  let scaleY := naturalHeight / imgHeight
  { x := max 0 ((r.x - imgOffsetX) * scaleX)
    y := max 0 ((r.y - imgOffsetY) * scaleY)
    width := r.width * scaleX
    height := r.height * scaleY }

/-- A full resize drag: fold the per-pointer-move resize step over the list
of pointer positions. -/
def resizeDrag (corner : Corner) (aspectRatio : Option ℚ) (r : Rect)
    (moves : List Vec2) : Rect :=
  moves.foldl (fun acc m => resizeStep corner aspectRatio acc m) r

/-- Claim C4: in crop mode with aspect ratio free, pointer-down at (100,100)
then drag to (300,250) yields the screen rectangle {100, 100, 200, 150};
committing it with image on-screen bounds {0, 0, 800, 600} and natural size
3200 × 2400 writes the pixel-space crop {400, 400, 800, 600}. -/
theorem scenario_b_crop_commit :
    (cropMouseMove none 800 600 (cropMouseDown initCropState ⟨100, 100⟩)
        ⟨300, 250⟩).cropRect = some ⟨100, 100, 200, 150⟩ ∧
    applyCropValue ⟨100, 100, 200, 150⟩ 0 0 800 600 3200 2400
      = ⟨400, 400, 800, 600⟩ := by
  constructor
  · norm_num [cropMouseMove, cropMouseDown, initCropState, createStep]
  · norm_num [applyCropValue]

/-- Counterexample to claim C3: the value `applyCrop` writes is a pixel-space
`{x, y, width, height}` rectangle, not a normalized `{top, left, bottom,
right}` rectangle with fields in `[0, 1]`: at the Scenario-B commit every
written component exceeds 1 (the x component is 400). -/
theorem crop_commit_not_normalized :
    (applyCropValue ⟨100, 100, 200, 150⟩ 0 0 800 600 3200 2400).x = 400 ∧
    ¬ (applyCropValue ⟨100, 100, 200, 150⟩ 0 0 800 600 3200 2400).x ≤ 1 := by
  constructor <;> norm_num [applyCropValue]

/-- Counterexample to claim C8: resizing the SE corner with the locked aspect
ratio 16:9, a pointer-move to (20, 50) on the rectangle {0, 0, 100, 100}
produces height 45/4 < 20, violating the claimed 20px floor on both
dimensions. -/
theorem resize_floor_counterexample :
    (resizeStep Corner.se (some (16/9)) ⟨0, 0, 100, 100⟩ ⟨20, 50⟩).height = 45/4 ∧
    ¬ 20 ≤ (resizeStep Corner.se (some (16/9)) ⟨0, 0, 100, 100⟩ ⟨20, 50⟩).height := by
  constructor <;> norm_num [resizeStep]

/-- Claim C8 as amended: after every resize pointer-move, for every corner,
the width is at least 20; with a free aspect ratio the height is also at
least 20; with a locked aspect ratio `a > 0` the height is derived as
`width / a` instead (and may fall below 20). -/
theorem resize_floor (c : Corner) (r : Rect) (m : Vec2) (a : ℚ) (ha : 0 < a) :
    (20 ≤ (resizeStep c none r m).width ∧ 20 ≤ (resizeStep c none r m).height) ∧
    20 ≤ (resizeStep c (some a) r m).width ∧
    (resizeStep c (some a) r m).height = (resizeStep c (some a) r m).width / a := by
  have _ := ha
  cases c <;>
    exact ⟨⟨le_max_left _ _, le_max_left _ _⟩, le_max_left _ _, rfl⟩

/-- Witness for C8 as amended: the SE resize of the counterexample input,
with aspect ratio 16/9. -/
theorem resize_floor_witness :
    (20 ≤ (resizeStep Corner.se none ⟨0, 0, 100, 100⟩ ⟨20, 50⟩).width ∧
      20 ≤ (resizeStep Corner.se none ⟨0, 0, 100, 100⟩ ⟨20, 50⟩).height) ∧
    20 ≤ (resizeStep Corner.se (some (16/9)) ⟨0, 0, 100, 100⟩ ⟨20, 50⟩).width ∧
    (resizeStep Corner.se (some (16/9)) ⟨0, 0, 100, 100⟩ ⟨20, 50⟩).height
      = (resizeStep Corner.se (some (16/9)) ⟨0, 0, 100, 100⟩ ⟨20, 50⟩).width / (16/9) :=
  resize_floor Corner.se ⟨0, 0, 100, 100⟩ ⟨20, 50⟩ (16/9) (by norm_num)

/-- Every single SE resize step with a locked aspect ratio derives the height
as `width / a`. -/
theorem resizeStep_se_locked (a : ℚ) (r : Rect) (m : Vec2) :
    (resizeStep Corner.se (some a) r m).height
      = (resizeStep Corner.se (some a) r m).width / a := rfl

/-- Claim C9: for a resize drag on corner SE with a locked aspect ratio
`a > 0`, after every pointer-move of any nonempty drag path the crop
rectangle satisfies `height = width / a` (exactly, in rational
arithmetic). -/
theorem se_drag_locked_ratio (a : ℚ) (ha : 0 < a) (r : Rect) (moves : List Vec2)
    (hne : moves ≠ []) :
    (resizeDrag Corner.se (some a) r moves).height
      = (resizeDrag Corner.se (some a) r moves).width / a := by
  have _ := ha
  induction moves generalizing r with
  | nil => exact absurd rfl hne
  | cons m rest ih =>
    cases rest with
    | nil => exact resizeStep_se_locked a r m
    | cons m2 rest2 =>
      exact ih (resizeStep Corner.se (some a) r m) (by simp)

/-- Witness for C9: a two-move SE drag with aspect ratio 16/9. -/
theorem se_drag_locked_ratio_witness :
    (resizeDrag Corner.se (some (16/9)) ⟨0, 0, 100, 100⟩
        [⟨20, 50⟩, ⟨300, 40⟩]).height
      = (resizeDrag Corner.se (some (16/9)) ⟨0, 0, 100, 100⟩
          [⟨20, 50⟩, ⟨300, 40⟩]).width / (16/9) :=
  se_drag_locked_ratio (16/9) (by norm_num) ⟨0, 0, 100, 100⟩
    [⟨20, 50⟩, ⟨300, 40⟩] (by simp)

/-! ## PreviewRequestScheduler: sequence numbers for the after preview

Each run of the preview effect increments `requestIdRef.current` and captures
the incremented value as `currentRequestId`; a completion is applied only when
`currentRequestId === requestIdRef.current` (otherwise it is discarded
silently). Cleanup and the next effect body run synchronously in one task, so
a run whose `cancelled` flag is set is exactly a run whose id is below the
current counter, and the id comparison alone decides acceptance. -/

/-- Scheduler state: the request counter (`requestIdRef.current`), which
accepted response is currently displayed (`previewUrl`, tagged by request id,
`none` for the placeholder), and the ids of all responses accepted so far
(ghost history used to state the ordering property). -/
structure SchedState where
  latestId : ℕ
  displayed : Option ℕ
  accepted : List ℕ
deriving DecidableEq, Repr

/-- Initial scheduler state: counter 0, nothing displayed. -/
def initSched : SchedState := ⟨0, none, []⟩

/-- Scheduler events: a new effect run (`++requestIdRef.current`), or the
completion of the request with the given id (`ok` distinguishes success
from failure). -/
inductive SchedEvent
  | issue
  | complete (id : ℕ) (ok : Bool)
deriving DecidableEq, Repr

/-- One scheduler transition: `issue` bumps the counter; a completion is
applied only when its id equals the current counter — success installs the
response, failure clears the displayed resource — and is discarded
otherwise. -/
def schedStep (s : SchedState) (e : SchedEvent) : SchedState :=
  match e with
  | .issue => { s with latestId := s.latestId + 1 }
  | .complete i ok =>
    if i = s.latestId then
      if ok then { s with displayed := some i, accepted := i :: s.accepted }
      else { s with displayed := none }
    else s

/-- Run the scheduler over a trace of events from the initial state. -/
def runSched (es : List SchedEvent) : SchedState := es.foldl schedStep initSched

/-- Scheduler invariant: accepted ids never exceed the counter, and whatever
is displayed is the largest accepted id. -/
def SchedInv (s : SchedState) : Prop :=
  (∀ j ∈ s.accepted, j ≤ s.latestId) ∧
  ∀ k, s.displayed = some k → k ∈ s.accepted ∧ ∀ j ∈ s.accepted, j ≤ k

theorem schedInv_init : SchedInv initSched := by
  constructor
  · intro j hj
    simp [initSched] at hj
  · intro k hk
    simp [initSched] at hk

theorem schedInv_step (s : SchedState) (e : SchedEvent) (h : SchedInv s) :
    SchedInv (schedStep s e) := by
  obtain ⟨hle, hdisp⟩ := h
  cases e with
  | issue =>
    exact ⟨fun j hj => le_trans (hle j hj) (Nat.le_succ _), fun k hk => hdisp k hk⟩
  | complete i ok =>
    by_cases hi : i = s.latestId
    · subst hi
      cases ok with
      | false =>
        have hstep : schedStep s (SchedEvent.complete s.latestId false)
            = { s with displayed := none } := by
          simp [schedStep]
        rw [hstep]
        exact ⟨hle, fun k hk => by simp at hk⟩
      | true =>
        have hstep : schedStep s (SchedEvent.complete s.latestId true)
            = { s with displayed := some s.latestId
                       accepted := s.latestId :: s.accepted } := by
          simp [schedStep]
        rw [hstep]
        refine ⟨fun j hj => ?_, fun k hk => ?_⟩
        · rcases List.mem_cons.mp hj with h1 | h2
          · exact le_of_eq h1
          · exact hle j h2
        · have hk2 : s.latestId = k := by simpa using hk
          subst hk2
          refine ⟨List.mem_cons_self _ _, fun j hj => ?_⟩
          rcases List.mem_cons.mp hj with h1 | h2
          · exact le_of_eq h1
          · exact hle j h2
    · have hstep : schedStep s (SchedEvent.complete i ok) = s := by
        simp [schedStep, hi]
      rw [hstep]
      exact ⟨hle, hdisp⟩

theorem schedInv_foldl (es : List SchedEvent) (s : SchedState) (h : SchedInv s) :
    SchedInv (es.foldl schedStep s) := by
  induction es generalizing s with
  | nil => exact h
  | cons e rest ih => exact ih (schedStep s e) (schedInv_step s e h)

/-- Claim C1: whatever preview is displayed is the response with the highest
sequence number accepted so far, and a response whose sequence number is
lower than the latest issued request's number is discarded without changing
the state. -/
theorem displayed_is_highest_accepted (es : List SchedEvent) (k : ℕ)
    (s : SchedState) (i : ℕ) (ok : Bool)
    (hdisp : (runSched es).displayed = some k) (hstale : i < s.latestId) :
    (runSched es).accepted.maximum = some k ∧
    schedStep s (SchedEvent.complete i ok) = s := by
  constructor
  · exact List.maximum_eq_coe_iff.mpr ((schedInv_foldl es initSched schedInv_init).2 k hdisp)
  · simp [schedStep, Nat.ne_of_lt hstale]

/-- Witness for C1: issue one request, accept its response; then a stale
completion (id 1 while the counter is at 2) leaves the state untouched. -/
theorem displayed_is_highest_accepted_witness :
    (runSched [SchedEvent.issue, SchedEvent.complete 1 true]).accepted.maximum = some 1 ∧
    schedStep ⟨2, some 2, [2]⟩ (SchedEvent.complete 1 true) = ⟨2, some 2, [2]⟩ :=
  displayed_is_highest_accepted [SchedEvent.issue, SchedEvent.complete 1 true] 1
    ⟨2, some 2, [2]⟩ 1 true (by decide) (by decide)

/-! ## PreviewRequestScheduler: trailing debounce -/

/-- An edit-state or file-selection change at a point in time, carrying the
edit-state snapshot as of that change. -/
structure Change (α : Type) where
  time : ℚ
  snapshot : α
deriving DecidableEq, Repr

/-- The debounce delay of the preview effect: `setTimeout(loadPreview, 150)`. -/
def debounceWindow : ℚ := 150

/-- The render requests issued for a time-ordered list of qualifying changes:
each change schedules a timer at `time + D` and cancels the previous pending
timer (`clearTimeout` in the effect cleanup), so the timer of a change fires
exactly when no further change arrives before its deadline. Each fired
request carries the snapshot of the change that scheduled it. -/
def debounceRequests {α : Type} (D : ℚ) : List (Change α) → List (ℚ × α)
  | [] => []
  | c :: rest =>
    (match rest with
     | [] => [(c.time + D, c.snapshot)]
     | c2 :: _ => if c.time + D ≤ c2.time then [(c.time + D, c.snapshot)] else [])
      ++ debounceRequests D rest

/-- Claim C2: for a burst of `N ≥ 1` changes in which each change arrives
sooner than the debounce window `D` after the previous one, exactly one
render request is issued, one debounce window after the last change of the
burst, carrying the snapshot as of that last change. -/
theorem debounce_burst {α : Type} (D : ℚ) (c : Change α) (cs : List (Change α))
    (hburst : (c :: cs).Chain' (fun a b => a.time < b.time ∧ b.time - a.time < D)) :
    debounceRequests D (c :: cs)
      = [(((c :: cs).getLastD c).time + D, ((c :: cs).getLastD c).snapshot)] := by
  induction cs generalizing c with
  | nil => simp [debounceRequests]
  | cons c2 rest ih =>
    have h12 : c.time < c2.time ∧ c2.time - c.time < D := (List.chain'_cons.mp hburst).1
    have htail : (c2 :: rest).Chain' (fun a b => a.time < b.time ∧ b.time - a.time < D) :=
      (List.chain'_cons.mp hburst).2
    have hno : ¬ c.time + D ≤ c2.time := by
      have h1 := h12.2
      linarith
    simpa [debounceRequests, hno] using ih c2 htail

/-- Witness for C2 (Scenario D with the source's 150 ms window): changes at
t = 0, 50, 80 ms produce exactly one request, at t = 230 ms, with the
snapshot of the t = 80 change. -/
theorem debounce_burst_witness :
    debounceRequests debounceWindow
        [(⟨0, 0⟩ : Change ℕ), ⟨50, 1⟩, ⟨80, 2⟩]
      = [((([(⟨0, 0⟩ : Change ℕ), ⟨50, 1⟩, ⟨80, 2⟩].getLastD ⟨0, 0⟩).time
            + debounceWindow),
          ([(⟨0, 0⟩ : Change ℕ), ⟨50, 1⟩, ⟨80, 2⟩].getLastD ⟨0, 0⟩).snapshot)] :=
  debounce_burst debounceWindow ⟨0, 0⟩ [⟨50, 1⟩, ⟨80, 2⟩]
    (by norm_num [List.chain'_cons, List.chain'_singleton, debounceWindow])

/-! ## CompareModeController: the before-preview effect

The effect has dependencies `[file?.id, compareMode]`. Whenever either
changes with a file selected: if `compareMode` is `off` it revokes and clears
the cached before resource; otherwise it unconditionally issues one render
request with `DEFAULT_EDIT_STATE` (there is no check whether a before
resource is already cached). -/

/-- The compare mode component state. -/
inductive CompareMode
  | off
  | split
  | toggle
deriving DecidableEq, Repr

/-- State of the before-preview effect for a fixed selected file:
`beforeUrl` (tagged by request index) and one list entry per before render
request issued so far, recording whether that request used the default
(unedited) edit state — the source always passes `DEFAULT_EDIT_STATE`. -/
structure BeforeState where
  beforeUrl : Option ℕ
  requests : List Bool
deriving DecidableEq, Repr

/-- Initial before state: nothing cached, no requests issued. -/
def initBefore : BeforeState := ⟨none, []⟩

/-- One run of the before-preview effect after `compareMode` changes to
`mode` (file unchanged): `off` clears the cached resource; `split` and
`toggle` issue one request with the default edit state and install its
result. -/
def beforeEffect (mode : CompareMode) (s : BeforeState) : BeforeState :=
  match mode with
  | .off => { s with beforeUrl := none }
  | _ => { beforeUrl := some s.requests.length, requests := s.requests ++ [true] }

/-- Run the before-preview effect over a sequence of compare-mode changes
for a fixed selected file. -/
def runBefore (modes : List CompareMode) : BeforeState :=
  modes.foldl (fun s m => beforeEffect m s) initBefore

/-- Counterexample to claim C5: cycling compare mode off → split → toggle for
one fixed file issues two before render requests, not one — the effect
re-fetches on every mode change and never reuses the cached resource. -/
theorem before_request_per_mode_change :
    (runBefore [CompareMode.split, CompareMode.toggle]).requests.length = 2 ∧
    ¬ (runBefore [CompareMode.split, CompareMode.toggle]).requests.length = 1 := by
  constructor
  · rfl
  · decide

theorem beforeRequests_foldl (modes : List CompareMode) (s : BeforeState) :
    ((modes.foldl (fun s m => beforeEffect m s) s).requests.length
        = s.requests.length + modes.countP (fun m => m != CompareMode.off)) ∧
    (∀ b ∈ (modes.foldl (fun s m => beforeEffect m s) s).requests,
        b = true ∨ b ∈ s.requests) := by
  induction modes generalizing s with
  | nil => simp
  | cons m rest ih =>
    cases m with
    | off =>
      have h := ih { s with beforeUrl := none }
      refine ⟨?_, ?_⟩
      · simpa [beforeEffect, List.countP_cons] using h.1
      · intro b hb
        simpa [beforeEffect] using h.2 b (by simpa [beforeEffect] using hb)
    | split =>
      have h := ih ⟨some s.requests.length, s.requests ++ [true]⟩
      refine ⟨?_, ?_⟩
      · have := h.1
        simp only [beforeEffect] at *
        simp [this, List.countP_cons]
        omega
      · intro b hb
        have := h.2 b (by simpa [beforeEffect] using hb)
        rcases this with h1 | h2
        · exact Or.inl h1
        · rcases List.mem_append.mp h2 with h3 | h4
          · exact Or.inr h3
          · simp at h4
            exact Or.inl h4
    | toggle =>
      have h := ih ⟨some s.requests.length, s.requests ++ [true]⟩
      refine ⟨?_, ?_⟩
      · have := h.1
        simp only [beforeEffect] at *
        simp [this, List.countP_cons]
        omega
      · intro b hb
        have := h.2 b (by simpa [beforeEffect] using hb)
        rcases this with h1 | h2
        · exact Or.inl h1
        · rcases List.mem_append.mp h2 with h3 | h4
          · exact Or.inr h3
          · simp at h4
            exact Or.inl h4

/-- Claim C5 as amended: for a fixed selected file, the number of before
render requests issued equals the number of compare-mode changes into split
or toggle — entering split issues one request, and every further mode change
into split or toggle (including split → toggle cycling) issues one more,
with no cache reuse; every such request uses the file's default unedited
edit state. -/
theorem before_requests_count (modes : List CompareMode) :
    (runBefore modes).requests.length
        = modes.countP (fun m => m != CompareMode.off) ∧
    ∀ b ∈ (runBefore modes).requests, b = true := by
  have h := beforeRequests_foldl modes initBefore
  refine ⟨by simpa [runBefore, initBefore] using h.1, fun b hb => ?_⟩
  rcases h.2 b (by simpa [runBefore] using hb) with h1 | h2
  · exact h1
  · simp [initBefore] at h2

/-! ## PreviewRequestScheduler: failure handling

The `catch` branch of `loadPreview` runs `console.error` and
`setPreviewUrl(null)` when the completion is not superseded; the `finally`
branch clears `localLoading` under the same guard. The store's `error` field
(the only UI-visible error channel, written via `setError`) is never touched
by `MainPreview`, and no request is re-issued. -/

/-- The after-preview display state together with the store's UI error field
and a count of issued render requests. -/
structure AfterState where
  previewUrl : Option ℕ
  localLoading : Bool
  storeError : Option ℕ
  requestsIssued : ℕ
deriving DecidableEq, Repr

/-- The failure path of `loadPreview` for the request `currentRequestId` when
the counter stands at `latestId`: if not cancelled and not superseded, clear
the preview and stop the spinner; otherwise change nothing. No error state is
written and no request is issued. -/
def completeFailure (currentRequestId latestId : ℕ) (cancelled : Bool)
    (s : AfterState) : AfterState :=
  if cancelled = false ∧ currentRequestId = latestId then
    { s with previewUrl := none, localLoading := false }
  else s

/-- Counterexample to claim C6: at a non-superseded failure the previously
displayed resource is not retained (it is cleared to the placeholder) and no
failure state is exposed for UI presentation — the store error stays empty;
only a console log happens. -/
theorem failure_not_surfaced :
    (completeFailure 3 3 false ⟨some 5, true, none, 3⟩).storeError = none ∧
    (completeFailure 3 3 false ⟨some 5, true, none, 3⟩).previewUrl = none := by
  constructor <;> rfl

/-- Claim C6 as amended: a non-superseded render failure is non-fatal — the
displayed resource is cleared to the placeholder rather than retained, the
failure is only logged (the UI error state is left untouched), and no
automatic retry is issued (the request count is unchanged). -/
theorem failure_clears_preview (s : AfterState) (i l : ℕ) (h : i = l) :
    completeFailure i l false s = { s with previewUrl := none, localLoading := false } ∧
    (completeFailure i l false s).storeError = s.storeError ∧
    (completeFailure i l false s).requestsIssued = s.requestsIssued := by
  subst h
  refine ⟨by simp [completeFailure], by simp [completeFailure], by simp [completeFailure]⟩

/-- Witness for C6 as amended at a concrete non-superseded failure. -/
theorem failure_clears_preview_witness :
    completeFailure 3 3 false ⟨some 5, true, some 7, 3⟩
        = { (⟨some 5, true, some 7, 3⟩ : AfterState) with
            previewUrl := none, localLoading := false } ∧
    (completeFailure 3 3 false ⟨some 5, true, some 7, 3⟩).storeError
        = (⟨some 5, true, some 7, 3⟩ : AfterState).storeError ∧
    (completeFailure 3 3 false ⟨some 5, true, some 7, 3⟩).requestsIssued
        = (⟨some 5, true, some 7, 3⟩ : AfterState).requestsIssued :=
  failure_clears_preview ⟨some 5, true, some 7, 3⟩ 3 3 rfl

end PhotoCull
